import Mathlib

/-!
Verification development for the MQTT device command/response protocol
engine of the backend-iotplatform repository.  The JavaScript class
MQTTService (src/unnamed/part_000) is embedded shallowly: JavaScript Maps
become association lists preserving insertion order, and the asynchronous
acknowledgment machinery becomes an explicit event-step relation.
-/

namespace IotPlatform

/-- Association list modelling a JavaScript Map with string keys and
insertion order preserved. -/
abbrev JsMap (α : Type) := List (String × α)

/-- Map.get: value stored at the given key. -/
def mapGet {α : Type} : JsMap α → String → Option α
  | [], _ => none
  | (k2, v) :: rest, k => if k2 = k then some v else mapGet rest k

/-- Map.set: replace the value at an existing key in place, else append. -/
def mapSet {α : Type} : JsMap α → String → α → JsMap α
  | [], k, v => [(k, v)]
  | (k2, v2) :: rest, k, v =>
    if k2 = k then (k, v) :: rest else (k2, v2) :: mapSet rest k v

/-- Map.delete: remove the entry with the given key. -/
def mapDelete {α : Type} : JsMap α → String → JsMap α
  | [], _ => []
  | (k2, v2) :: rest, k =>
    if k2 = k then mapDelete rest k else (k2, v2) :: mapDelete rest k

theorem mapGet_cons {α : Type} (rest : JsMap α) (k2 k : String) (v2 : α) :
    mapGet ((k2, v2) :: rest) k = if k2 = k then some v2 else mapGet rest k := rfl

theorem mapSet_cons {α : Type} (rest : JsMap α) (k2 k : String) (v2 v : α) :
    mapSet ((k2, v2) :: rest) k v
      = if k2 = k then (k, v) :: rest else (k2, v2) :: mapSet rest k v := rfl

theorem mapDelete_cons {α : Type} (rest : JsMap α) (k2 k : String) (v2 : α) :
    mapDelete ((k2, v2) :: rest) k
      = if k2 = k then mapDelete rest k else (k2, v2) :: mapDelete rest k := rfl

theorem mapGet_delete_self {α : Type} (m : JsMap α) (k : String) :
    mapGet (mapDelete m k) k = none := by
  induction m with
  | nil => rfl
  | cons e rest ih =>
    obtain ⟨k2, v2⟩ := e
    by_cases h : k2 = k <;> simp [mapDelete, mapGet, h, ih]

theorem mapGet_delete_ne {α : Type} (m : JsMap α) (k k2 : String) (h : k ≠ k2) :
    mapGet (mapDelete m k2) k = mapGet m k := by
  induction m with
  | nil => rfl
  | cons e rest ih =>
    obtain ⟨k3, v3⟩ := e
    by_cases h3 : k3 = k2
    · have h4 : ¬k3 = k := by
        intro hk; exact h (hk ▸ h3)
      rw [mapDelete_cons, if_pos h3, ih, mapGet_cons, if_neg h4]
    · by_cases h4 : k3 = k
      · rw [mapDelete_cons, if_neg h3, mapGet_cons, if_pos h4,
          mapGet_cons, if_pos h4]
      · rw [mapDelete_cons, if_neg h3, mapGet_cons, if_neg h4, ih,
          mapGet_cons, if_neg h4]

theorem mapGet_set_self {α : Type} (m : JsMap α) (k : String) (v : α) :
    mapGet (mapSet m k v) k = some v := by
  induction m with
  | nil => simp [mapSet, mapGet]
  | cons e rest ih =>
    obtain ⟨k2, v2⟩ := e
    by_cases h : k2 = k <;> simp [mapSet, mapGet, h, ih]

theorem mem_mapSet {α : Type} (m : JsMap α) (k : String) (v : α)
    (e : String × α) (h : e ∈ mapSet m k v) : e = (k, v) ∨ e ∈ m := by
  induction m with
  | nil => simpa [mapSet] using h
  | cons e2 rest ih =>
    obtain ⟨k2, v2⟩ := e2
    by_cases h2 : k2 = k
    · simp only [mapSet, h2, if_pos rfl] at h
      rcases List.mem_cons.mp h with h3 | h3
      · exact Or.inl h3
      · exact Or.inr (List.mem_cons_of_mem _ h3)
    · simp only [mapSet, h2, if_neg h2] at h
      rcases List.mem_cons.mp h with h3 | h3
      · exact Or.inr (h3 ▸ List.mem_cons_self _ _)
      · rcases ih h3 with h4 | h4
        · exact Or.inl h4
        · exact Or.inr (List.mem_cons_of_mem _ h4)

theorem mapSet_keys_of_get {α : Type} (m : JsMap α) (k : String) (v c : α)
    (h : mapGet m k = some c) :
    (mapSet m k v).map Prod.fst = m.map Prod.fst := by
  induction m with
  | nil => simp [mapGet] at h
  | cons e rest ih =>
    obtain ⟨k2, v2⟩ := e
    by_cases h2 : k2 = k
    · simp [mapSet, h2]
    · simp only [mapGet, if_neg h2] at h
      simp [mapSet, h2, ih h]

theorem mapDelete_sublist {α : Type} (m : JsMap α) (k : String) :
    List.Sublist (mapDelete m k) m := by
  induction m with
  | nil => simp [mapDelete]
  | cons e rest ih =>
    obtain ⟨k2, v2⟩ := e
    by_cases h : k2 = k
    · rw [mapDelete_cons, if_pos h]
      exact List.Sublist.cons (k2, v2) ih
    · rw [mapDelete_cons, if_neg h]
      exact List.Sublist.cons₂ (k2, v2) ih

theorem mem_mapDelete {α : Type} (m : JsMap α) (k : String)
    (e : String × α) (h : e ∈ mapDelete m k) : e ∈ m :=
  (mapDelete_sublist m k).subset h

theorem nodup_mapDelete {α : Type} (m : JsMap α) (k : String)
    (h : (m.map Prod.fst).Nodup) : ((mapDelete m k).map Prod.fst).Nodup :=
  h.sublist ((mapDelete_sublist m k).map Prod.fst)

theorem mem_of_mapGet {α : Type} (m : JsMap α) (k : String) (v : α)
    (h : mapGet m k = some v) : (k, v) ∈ m := by
  induction m with
  | nil => simp [mapGet] at h
  | cons e rest ih =>
    obtain ⟨k2, v2⟩ := e
    by_cases h2 : k2 = k
    · simp only [mapGet, if_pos h2] at h
      subst h2
      exact (Option.some_inj.mp h) ▸ List.mem_cons_self _ _
    · simp only [mapGet, if_neg h2] at h
      exact List.mem_cons_of_mem _ (ih h)

theorem mapGet_of_mem_nodup {α : Type} (m : JsMap α) (k : String) (v : α)
    (hn : (m.map Prod.fst).Nodup) (h : (k, v) ∈ m) : mapGet m k = some v := by
  induction m with
  | nil => simp at h
  | cons e rest ih =>
    obtain ⟨k2, v2⟩ := e
    have hn2 : k2 ∉ rest.map Prod.fst ∧ (rest.map Prod.fst).Nodup :=
      List.nodup_cons.mp (show (k2 :: rest.map Prod.fst).Nodup by simpa using hn)
    rcases List.mem_cons.mp h with h2 | h2
    · have hk : k2 = k := congrArg Prod.fst h2.symm
      have hv : v2 = v := congrArg Prod.snd h2.symm
      rw [mapGet_cons, if_pos hk, hv]
    · have hmem : k ∈ rest.map Prod.fst := List.mem_map_of_mem Prod.fst h2
      have hk2 : ¬k2 = k := by
        intro hk
        rw [hk] at hn2
        exact hn2.1 hmem
      rw [mapGet_cons, if_neg hk2]
      exact ih hn2.2 h2

theorem mem_keys_of_mapGet {α : Type} (m : JsMap α) (k : String) (v : α)
    (h : mapGet m k = some v) : k ∈ m.map Prod.fst :=
  List.mem_map_of_mem Prod.fst (mem_of_mapGet m k v h)

/-- List.find? over an append whose left part has no hit. -/
theorem find?_append_left_none {α : Type} (p : α → Bool) (l l2 : List α)
    (h : l.find? p = none) : (l ++ l2).find? p = l2.find? p := by
  induction l with
  | nil => rfl
  | cons a rest ih =>
    cases ha : p a with
    | true =>
      rw [List.find?_cons_of_pos _ ha] at h
      exact absurd h (by simp)
    | false =>
      rw [List.find?_cons_of_neg _ (by simp [ha])] at h
      rw [List.cons_append, List.find?_cons_of_neg _ (by simp [ha])]
      exact ih h

/-- List.find? over an append whose left part already hits. -/
theorem find?_append_left_some {α : Type} (p : α → Bool) (l l2 : List α) (a : α)
    (h : l.find? p = some a) : (l ++ l2).find? p = some a := by
  induction l with
  | nil => simp [List.find?] at h
  | cons b rest ih =>
    cases hb : p b with
    | true =>
      rw [List.find?_cons_of_pos _ hb] at h
      rw [List.cons_append, List.find?_cons_of_pos _ hb]
      exact h
    | false =>
      rw [List.find?_cons_of_neg _ (by simp [hb])] at h
      rw [List.cons_append, List.find?_cons_of_neg _ (by simp [hb])]
      exact ih h

/-! JavaScript truthiness helpers for optional values. -/

/-- Truthiness of an optional string: undefined and the empty string are falsy. -/
def strTruthy : Option String → Bool
  | none => false
  | some s => decide (s ≠ "")

/-- Truthiness of an optional numeric id: undefined and 0 are falsy. -/
def natTruthy : Option Nat → Bool
  | none => false
  | some n => decide (n ≠ 0)

/-- Truthiness of an optional pin number: undefined (also NaN) and 0 are falsy. -/
def pinTruthy : Option Int → Bool
  | none => false
  | some n => decide (n ≠ 0)

/-- The JavaScript expression a OR b for an optional string with a default. -/
def jsOrStr : Option String → String → String
  | none, d => d
  | some s, d => if s = "" then d else s

/-- The JavaScript expression a OR b for an optional numeric id with a default. -/
def jsOrNat : Option Nat → Nat → Nat
  | none, d => d
  | some n, d => if n = 0 then d else n

/-- First truthy value of two optional strings, else null. -/
def firstTruthy (a b : Option String) : Option String :=
  if strTruthy a then a else if strTruthy b then b else none

/-!
Topic Router: MQTTService.matchesMqttTopic (src/unnamed/part_000 lines
691 to 721) and MQTTService.handleMessage (lines 668 to 689).
-/

/-- Recursive model of the JavaScript String.prototype.split with the
single-character separator slash, over the character list of the string:
the empty string splits to one empty level, and every slash starts a new
level. -/
def splitOnSlash : List Char → List String
  | [] => [""]
  | c :: rest =>
    let r := splitOnSlash rest
    if c = '/' then "" :: r
    else (String.mk [c] ++ r.headD "") :: r.tail

/-- The level list of a topic or pattern string, as produced by the
JavaScript call s.split on the slash separator. -/
def splitLevels (s : String) : List String := splitOnSlash s.data

/-- The for-loop of matchesMqttTopic, walking pattern and topic levels in
lock-step.  Returns some b when the loop returns early with b, and none
when the loop runs through every pattern level. -/
def walk : List String → List String → Option Bool
  | [], _ => none
  | p :: ps, ts =>
    if p = "#" then some true
    else
      match ts with
      | [] => some false
      | t :: ts2 =>
        if p = "+" then walk ps ts2
        else if p = t then walk ps ts2
        else some false

/-- MQTTService.matchesMqttTopic: MQTT wildcard pattern matching with the
plus and hash wildcards, translated line by line from the source. -/
def matchesMqttTopic (pattern topic : String) : Bool :=
  if pattern = "" then false
  else if pattern = topic then true
  else
    match walk (splitLevels pattern) (splitLevels topic) with
    | some b => b
    | none =>
      decide ((splitLevels topic).length = (splitLevels pattern).length)
        || decide ((splitLevels pattern).getLast? = some "#")

/-- The lock-step walk described by the specification: a hash pattern level
matches all remaining topic levels (even zero), an exhausted topic against a
remaining non-hash pattern level fails, a plus level consumes exactly one
topic level, a literal level must match exactly, and the match succeeds only
when both sides are fully consumed. -/
def lockstepMatch : List String → List String → Bool
  | [], ts => decide (ts = [])
  | p :: ps, ts =>
    if p = "#" then true
    else
      match ts with
      | [] => false
      | t :: ts2 =>
        if p = "+" then lockstepMatch ps ts2
        else decide (p = t) && lockstepMatch ps ts2

/-- MQTTService.handleMessage (lines 668 to 689): exact-topic handler first,
else the first registered wildcard pattern that matches.  Handlers are
modelled by numeric identifiers; the result is the one handler invoked. -/
def handleMessage (handlers : JsMap Nat) (topic : String) : Option Nat :=
  match mapGet handlers topic with
  | some h => some h
  | none =>
    (handlers.find? (fun e => matchesMqttTopic e.1 topic)).map (fun e => e.2)

/-!
Transport Connection Manager: MQTTService.publish (lines 603 to 622) and
MQTTService.subscribe (lines 568 to 585).
-/

/-- State owned by the topic router: the subscription set and the handler
map, both keyed by topic pattern. -/
structure RouterState where
  subscriptions : JsMap Bool
  messageHandlers : JsMap Nat
deriving DecidableEq

/-- MQTTService.publish: while not connected the returned promise is
rejected at once with the connection error; otherwise the outcome follows
the transport callback. -/
def publish (isConnected : Bool) (topic message : String)
    (transportError : Option String) : Except String Unit :=
  if !isConnected then Except.error "MQTT client not connected"
  else
    match transportError with
    | some e => Except.error e
    | none => Except.ok ()

/-- MQTTService.subscribe: while not connected the call logs a warning and
returns without touching the subscription or handler maps; when connected
and the transport confirms, both maps are updated. -/
def subscribe (isConnected : Bool) (transportOk : Bool) (st : RouterState)
    (topic : String) (handler : Option Nat) : RouterState :=
  if !isConnected then st
  else if !transportOk then st
  else
    { subscriptions := mapSet st.subscriptions topic true
      messageHandlers :=
        match handler with
        | some h => mapSet st.messageHandlers topic h
        | none => st.messageHandlers }

/-!
Command Dispatcher and Ack Correlator: the pendingCommands map entries
created by MQTTService.sendCommand (lines 727 to 810), the acknowledgment
correlation portion of MQTTService.handleDeviceResponse (lines 849 to 892),
and MQTTService.waitForAck (lines 812 to 834).
-/

/-- One entry of the pendingCommands map, as created by sendCommand.  The
waiter field models the resolve callback installed by waitForAck (none
until a caller blocks); waiters are identified by numbers. -/
structure PendingCommand where
  boardId : String
  commandType : String
  status : String
  waiter : Option Nat
  expectedAction : Option String
  expectedPin : Option Int
deriving DecidableEq

/-- The details object of an inbound device response payload. -/
structure RespDetails where
  pin : Option Int
deriving DecidableEq

/-- Fields of a parsed inbound device response payload that the
acknowledgment correlation logic reads. -/
structure RespMsg where
  type : Option String
  commandId : Option String
  success : Bool
  status : Option String
  action : Option String
  details : Option RespDetails
deriving DecidableEq

/-- Record of one command resolution: the command id, the terminal status
written to the entry, the waiter whose resolve callback is invoked (if
any), and the boolean value passed to it. -/
structure Resolution where
  cmdId : String
  newStatus : String
  waiter : Option Nat
  value : Bool
deriving DecidableEq

/-- The action guard of the heuristic matcher: a falsy expectedAction
matches anything, otherwise the inbound action must be equal. -/
def actionMatches (p : PendingCommand) (msg : RespMsg) : Bool :=
  !strTruthy p.expectedAction || decide (p.expectedAction = msg.action)

/-- The pin guard of the heuristic matcher: a falsy expectedPin (undefined,
NaN or zero) matches anything, otherwise details must be present and carry
an equal pin number. -/
def pinMatches (p : PendingCommand) (msg : RespMsg) : Bool :=
  !pinTruthy p.expectedPin ||
    (match msg.details with
     | none => false
     | some d =>
       match d.pin, p.expectedPin with
       | some dp, some ep => decide (dp = ep)
       | _, _ => false)

/-- Whole guard of the heuristic scan over pendingCommands entries. -/
def heuristicGuard (deviceId : String) (msg : RespMsg)
    (e : String × PendingCommand) : Bool :=
  decide (e.2.boardId = deviceId) && actionMatches e.2 msg && pinMatches e.2 msg

/-- The acknowledgment correlation part of MQTTService.handleDeviceResponse
(lines 849 to 892): the explicit path keyed by commandId runs first and
returns even on a miss; otherwise a payload carrying truthy status and
action fields triggers the heuristic scan, which resolves the first
pendingCommands entry for the same board whose guards pass.  Returns the
updated map and the resolution performed, if any. -/
def handleDeviceResponseAcks (m : JsMap PendingCommand) (deviceId : String)
    (msg : RespMsg) : JsMap PendingCommand × Option Resolution :=
  if msg.type = some "ack" ∧ strTruthy msg.commandId then
    match mapGet m (msg.commandId.getD "") with
    | some c =>
      (mapDelete m (msg.commandId.getD ""),
       some { cmdId := msg.commandId.getD ""
              newStatus := if msg.success then "acknowledged" else "failed"
              waiter := c.waiter
              value := msg.success })
    | none => (m, none)
  else if strTruthy msg.status ∧ strTruthy msg.action then
    match m.find? (heuristicGuard deviceId msg) with
    | some e =>
      (mapDelete m e.1,
       some { cmdId := e.1
              newStatus :=
                if msg.status = some "success" then "acknowledged" else "failed"
              waiter := e.2.waiter
              value := decide (msg.status = some "success") })
    | none => (m, none)
  else (m, none)

/-- Scheduler events for the acknowledgment machinery: a waitForAck call
registering waiter w on a correlation id, an inbound message on a device
response topic, and the firing of the timeout installed by the waitForAck
call of waiter w. -/
inductive Event
  | wait (cid : String) (w : Nat)
  | msg (deviceId : String) (m : RespMsg)
  | timeout (cid : String) (w : Nat)
deriving DecidableEq

/-- Run state: the live pendingCommands map, the promise resolutions
performed so far (a promise resolves at most once, first call wins), and
the log of command resolutions. -/
structure RunState where
  pending : JsMap PendingCommand
  results : List (Nat × Bool)
  log : List Resolution
deriving DecidableEq

/-- Resolve the promise of waiter w with value v; a promise that already
resolved is left untouched. -/
def resolveWaiter (rs : List (Nat × Bool)) (w : Nat) (v : Bool) :
    List (Nat × Bool) :=
  match rs.find? (fun r => decide (r.1 = w)) with
  | some _ => rs
  | none => rs ++ [(w, v)]

/-- The value a waiter was resolved with, if its promise has resolved. -/
def getResult (rs : List (Nat × Bool)) (w : Nat) : Option Bool :=
  (rs.find? (fun r => decide (r.1 = w))).map (fun r => r.2)

/-- One scheduler step.  A wait event resolves false at once when no
pending command exists, else installs the waiter (overwriting any previous
one, as the source assignment command.resolve does).  A message event runs
the acknowledgment correlation.  A timeout event mirrors the setTimeout
callback in waitForAck: only a still-pending entry is removed and resolved
false with the resolve captured by that callback. -/
def step (s : RunState) : Event → RunState
  | Event.wait cid w =>
    match mapGet s.pending cid with
    | none => { s with results := resolveWaiter s.results w false }
    | some c =>
      { s with pending := mapSet s.pending cid { c with waiter := some w } }
  | Event.msg deviceId m =>
    match handleDeviceResponseAcks s.pending deviceId m with
    | (p2, none) => { s with pending := p2 }
    | (p2, some res) =>
      { pending := p2
        results :=
          match res.waiter with
          | some w => resolveWaiter s.results w res.value
          | none => s.results
        log := s.log ++ [res] }
  | Event.timeout cid w =>
    match mapGet s.pending cid with
    | none => s
    | some c =>
      if c.status = "pending" then
        { pending := mapDelete s.pending cid
          results := resolveWaiter s.results w false
          log := s.log }
      else s

/-- Process a list of events in order. -/
def run (s : RunState) (es : List Event) : RunState := es.foldl step s

/-- Initial run state over a pendingCommands map. -/
def initState (m : JsMap PendingCommand) : RunState :=
  { pending := m, results := [], log := [] }

/-!
Response Classifier entry: the JSON.parse guard of the current
MQTTService.handleDeviceResponse (src/unnamed/part_000 lines 836 to 846)
and of the legacy MQTTService.handleDeviceResponse kept in the same source
file (lines 214 to 252).
-/

/-- An inbound payload, abstracted by whether JSON.parse succeeds on it. -/
inductive Payload
  | json (m : RespMsg)
  | nonJson (raw : String)
deriving DecidableEq

/-- Outcome of the current handleDeviceResponse on one payload: a payload
failing JSON.parse is logged as an error and the handler returns at once
(lines 841 to 846), performing no wrap, no store and no state change;
a parsed payload proceeds to acknowledgment correlation. -/
inductive DeviceResponseStep
  | droppedInvalidJson
  | processed (pending : JsMap PendingCommand) (r : Option Resolution)
deriving DecidableEq

/-- Entry of the current MQTTService.handleDeviceResponse. -/
def handleDeviceResponsePayload (pending : JsMap PendingCommand)
    (deviceId : String) (p : Payload) : DeviceResponseStep :=
  match p with
  | Payload.nonJson _ => DeviceResponseStep.droppedInvalidJson
  | Payload.json m =>
    DeviceResponseStep.processed (handleDeviceResponseAcks pending deviceId m).1
      (handleDeviceResponseAcks pending deviceId m).2

/-- The data object seen by the legacy handleDeviceResponse after its parse
guard: parsed fields, or a wrapper object holding the raw text. -/
structure LegacyData where
  raw_message : Option String
  type : Option String
  action : Option String
deriving DecidableEq

/-- The parse guard of the legacy handler (lines 219 to 224): a payload
failing JSON.parse is wrapped as an object with a raw_message field. -/
def parseOrWrap : Payload → LegacyData
  | Payload.json m => { raw_message := none, type := m.type, action := m.action }
  | Payload.nonJson raw => { raw_message := some raw, type := none, action := none }

/-- Event kinds distinguished by the legacy handler (lines 237 to 247). -/
inductive LegacyClass
  | heartbeat
  | sensorData
  | commandResponse
  | general
deriving DecidableEq

/-- The classification chain of the legacy handler: heartbeat, sensor data,
command response, else stored as general device data. -/
def legacyClassify (d : LegacyData) : LegacyClass :=
  if d.type = some "heartbeat" ∨ d.action = some "ping" then LegacyClass.heartbeat
  else if d.type = some "sensor_data" then LegacyClass.sensorData
  else if d.type = some "command_response" then LegacyClass.commandResponse
  else LegacyClass.general

/-!
Identity Resolver and Auto-Registrar: MQTTService.autoRegisterDevice
(lines 991 to 1052) and MQTTService.handleRegistration (lines 1224 to
1265).  Database lookups become function parameters; the insert and
update statements become effect values describing the row written.
-/

/-- The users table, seen through the three lookup queries the resolver
issues.  Each returns the list of matching user ids. -/
structure UserDb where
  byShortId : String → List Nat
  byEmail : String → List Nat
  byId : Nat → List Nat

/-- Fields of a registration or announce payload that auto-registration
reads. -/
structure RegData where
  deviceId : Option String
  shortId : Option String
  userEmail : Option String
  userId : Option Nat
  detailsMac : Option String
  mac : Option String
  deviceName : Option String
  deviceLocation : Option String
  replyTopic : Option String
deriving DecidableEq

/-- A row of the esp32_boards table; none models SQL NULL. -/
structure BoardRecord where
  user_id : Option Nat
  mac_address : Option String
  name : Option String
  location : Option String
  mqtt_topic_cmd : Option String
  mqtt_topic_resp : Option String
deriving DecidableEq

/-- SQL COALESCE of two nullable values. -/
def sqlCoalesce {α : Type} : Option α → Option α → Option α
  | some x, _ => some x
  | none, b => b

/-- The user lookup chain of autoRegisterDevice (lines 993 to 1003):
short id first, then email, then numeric id, each tried only while the
previous result list is empty and the candidate field is truthy. -/
def resolveUser (udb : UserDb) (shortId userEmail : Option String)
    (userId : Option Nat) : List Nat :=
  let users : List Nat := []
  let users :=
    if strTruthy shortId then udb.byShortId (shortId.getD "") else users
  let users :=
    if users = [] ∧ strTruthy userEmail then udb.byEmail (userEmail.getD "")
    else users
  let users :=
    if users = [] ∧ natTruthy userId then udb.byId (userId.getD 0) else users
  users

/-- The UPDATE statement run for an already-registered board (lines 1030 to
1043): user_id keeps the existing truthy value, mac_address, name and
location take the new value when it is non-null, and the two topic columns
keep the existing value when it is non-null. -/
def updateExistingBoard (b : BoardRecord) (userId : Nat) (mac : Option String)
    (name location topicCmd topicResp : String) : BoardRecord :=
  { user_id := some (jsOrNat b.user_id userId)
    mac_address := sqlCoalesce mac b.mac_address
    name := sqlCoalesce (some name) b.name
    location := sqlCoalesce (some location) b.location
    mqtt_topic_cmd := sqlCoalesce b.mqtt_topic_cmd (some topicCmd)
    mqtt_topic_resp := sqlCoalesce b.mqtt_topic_resp (some topicResp) }

/-- The database write performed by autoRegisterDevice, if any. -/
inductive RegEffect
  | insert (rec : BoardRecord)
  | update (rec : BoardRecord)
deriving DecidableEq

/-- MQTTService.autoRegisterDevice (lines 991 to 1052): resolve the owning
user, then insert a new board row or conservatively update the existing
one.  Returns the success flag the source returns and the row written. -/
def autoRegisterDevice (udb : UserDb) (existing : Option BoardRecord)
    (deviceId : String) (data : RegData) : Bool × Option RegEffect :=
  match resolveUser udb data.shortId data.userEmail data.userId with
  | [] => (false, none)
  | u :: _ =>
    let mac := firstTruthy data.detailsMac data.mac
    let name := jsOrStr data.deviceName ("ESP32 " ++ deviceId)
    let location := jsOrStr data.deviceLocation ""
    let topicCmd := "cmd/" ++ deviceId
    let topicResp := "resp/" ++ deviceId
    match existing with
    | none =>
      (true,
       some (RegEffect.insert
         { user_id := some u
           mac_address := mac
           name := some name
           location := some location
           mqtt_topic_cmd := some topicCmd
           mqtt_topic_resp := some topicResp }))
    | some b =>
      (true,
       some (RegEffect.update
         (updateExistingBoard b u mac name location topicCmd topicResp)))

/-- The acknowledgment envelope handleRegistration publishes back. -/
structure RegAck where
  action : String
  status : String
  user_short_id : String
  error : Option String
deriving DecidableEq

/-- MQTTService.handleRegistration (lines 1224 to 1265) after JSON parsing:
a payload missing deviceId or shortId is rejected before any lookup;
otherwise auto-registration runs and an acknowledgment reporting success or
failure is published to the device reply topic or its command topic. -/
def handleRegistration (udb : UserDb) (existing : Option BoardRecord)
    (data : RegData) : Option (String × RegAck × Option RegEffect) :=
  match data.deviceId with
  | none => none
  | some did =>
    if did = "" then none
    else if !strTruthy data.shortId then none
    else
      let r := autoRegisterDevice udb existing did data
      let ack : RegAck :=
        { action := "registered"
          status := if r.1 then "success" else "failed"
          user_short_id := data.shortId.getD ""
          error := if r.1 then none else some "link_failed" }
      let reply :=
        match data.replyTopic with
        | some rt => if rt ≠ "" then rt else "cmd/" ++ did
        | none => "cmd/" ++ did
      some (reply, ack, r.2)

/-! Theorems for the topic matcher. -/

theorem lockstep_self (ls : List String) : lockstepMatch ls ls = true := by
  induction ls with
  | nil => simp [lockstepMatch]
  | cons p ps ih =>
    by_cases hph : p = "#"
    · simp [lockstepMatch, hph]
    · by_cases hpp : p = "+"
      · simp [lockstepMatch, hph, hpp, ih]
      · simp [lockstepMatch, hph, hpp, ih]

theorem getLast_cons_ne_hash (p : String) (ps : List String) (hph : p ≠ "#") :
    decide ((p :: ps).getLast? = some "#")
      = decide (ps.getLast? = some "#") := by
  cases ps with
  | nil => simp [hph]
  | cons q qs => rw [List.getLast?_cons_cons]

theorem walk_equiv (ps : List String) : ∀ ts : List String,
    (match walk ps ts with
     | some b => b
     | none =>
       decide (ts.length = ps.length) || decide (ps.getLast? = some "#"))
      = lockstepMatch ps ts := by
  induction ps with
  | nil =>
    intro ts
    cases ts <;> simp [walk, lockstepMatch]
  | cons p ps ih =>
    intro ts
    by_cases hph : p = "#"
    · simp [walk, lockstepMatch, hph]
    · cases ts with
      | nil => simp [walk, lockstepMatch, hph]
      | cons t ts2 =>
        have hstep : ∀ hwalk : walk (p :: ps) (t :: ts2) = walk ps ts2,
            ∀ hlock : lockstepMatch (p :: ps) (t :: ts2) = lockstepMatch ps ts2,
            (match walk (p :: ps) (t :: ts2) with
             | some b => b
             | none =>
               decide ((t :: ts2).length = (p :: ps).length)
                 || decide ((p :: ps).getLast? = some "#"))
              = lockstepMatch (p :: ps) (t :: ts2) := by
          intro hwalk hlock
          rw [hwalk, hlock]
          have := ih ts2
          cases hwk : walk ps ts2 with
          | some b => rw [hwk] at this; simpa using this
          | none =>
            rw [hwk] at this
            simp only at this ⊢
            rw [getLast_cons_ne_hash p ps hph]
            rw [← this]
            simp
        by_cases hpp : p = "+"
        · exact hstep (by simp [walk, hph, hpp]) (by simp [lockstepMatch, hph, hpp])
        · by_cases hpt : p = t
          · exact hstep (by subst hpt; simp [walk, hph, hpp])
              (by subst hpt; simp [lockstepMatch, hph, hpp])
          · simp [walk, lockstepMatch, hph, hpp, hpt]

/-- C3: for every pattern and topic string the wildcard matcher splits both
on the slash separator and walks levels in lock-step, with the hash level
matching all remaining topic levels (even zero), an exhausted topic against
remaining pattern levels failing, the plus level consuming exactly one
level, literal mismatches failing, and overall success exactly when both
sides are consumed in lock-step; in particular the pattern resp/+ matches
resp/ESP32_1 but not resp/ESP32_1/extra, and cmd/# matches cmd/x and
cmd/x/y. -/
theorem matchesMqttTopic_lockstep :
    (∀ pattern topic : String, pattern ≠ "" →
      matchesMqttTopic pattern topic
        = lockstepMatch (splitLevels pattern) (splitLevels topic))
    ∧ matchesMqttTopic "resp/+" "resp/ESP32_1" = true
    ∧ matchesMqttTopic "resp/+" "resp/ESP32_1/extra" = false
    ∧ matchesMqttTopic "cmd/#" "cmd/x" = true
    ∧ matchesMqttTopic "cmd/#" "cmd/x/y" = true := by
  refine ⟨?_, by decide, by decide, by decide, by decide⟩
  intro pattern topic hne
  unfold matchesMqttTopic
  rw [if_neg hne]
  by_cases heq : pattern = topic
  · rw [if_pos heq, heq]
    exact (lockstep_self _).symm
  · rw [if_neg heq]
    exact walk_equiv (splitLevels pattern) (splitLevels topic)

/-- Witness for C3 at a concrete pattern and topic. -/
theorem matchesMqttTopic_lockstep_witness :
    matchesMqttTopic "resp/+" "resp/ESP32_1/extra"
      = lockstepMatch (splitLevels "resp/+") (splitLevels "resp/ESP32_1/extra") :=
  matchesMqttTopic_lockstep.1 "resp/+" "resp/ESP32_1/extra" (by decide)

/-! Theorems for router dispatch and the offline guards. -/

/-- C4: dispatch invokes at most one handler per inbound message: a handler
registered under the exact topic runs and no wildcard pattern is consulted;
otherwise the registered patterns are scanned in insertion order and only
the first matching pattern has its handler invoked; with no exact entry and
no matching pattern, no handler runs. -/
theorem handleMessage_dispatch :
    (∀ (handlers : JsMap Nat) (topic : String) (h : Nat),
      mapGet handlers topic = some h → handleMessage handlers topic = some h)
    ∧ (∀ (pre post : JsMap Nat) (p : String) (h : Nat) (topic : String),
        mapGet (pre ++ (p, h) :: post) topic = none →
        matchesMqttTopic p topic = true →
        (∀ e ∈ pre, matchesMqttTopic e.1 topic = false) →
        handleMessage (pre ++ (p, h) :: post) topic = some h)
    ∧ (∀ (handlers : JsMap Nat) (topic : String),
        mapGet handlers topic = none →
        (∀ e ∈ handlers, matchesMqttTopic e.1 topic = false) →
        handleMessage handlers topic = none) := by
  refine ⟨?_, ?_, ?_⟩
  · intro handlers topic h hget
    unfold handleMessage
    rw [hget]
  · intro pre post p h topic hnone hmatch hpre
    unfold handleMessage
    rw [hnone]
    have hfpre : pre.find? (fun e => matchesMqttTopic e.1 topic) = none :=
      List.find?_eq_none.mpr (fun x hx => by simp [hpre x hx])
    rw [find?_append_left_none _ _ _ hfpre]
    rw [List.find?_cons_of_pos _ (by simpa using hmatch)]
    rfl
  · intro handlers topic hnone hall
    unfold handleMessage
    rw [hnone]
    rw [List.find?_eq_none.mpr (fun x hx => by simp [hall x hx])]
    rfl

/-- Witness for C4 at a concrete handler map and topic. -/
theorem handleMessage_dispatch_witness :
    handleMessage [("resp/other", 3), ("resp/+", 5)] "resp/ESP32_1" = some 5 :=
  handleMessage_dispatch.2.1 [("resp/other", 3)] [] "resp/+" 5 "resp/ESP32_1"
    (by decide) (by decide) (by decide)

/-- C9: while the connection flag is down, every publish call is rejected
at once with the connection error surfaced to the caller (no queueing), and
every subscribe call returns without recording any subscription or
handler. -/
theorem offline_reject :
    ∀ (topic message : String) (transportError : Option String)
      (transportOk : Bool) (st : RouterState) (handler : Option Nat),
      publish false topic message transportError
        = Except.error "MQTT client not connected"
      ∧ subscribe false transportOk st topic handler = st := by
  intro topic message transportError transportOk st handler
  exact ⟨rfl, rfl⟩

/-! Theorems for the response classifier parse guard. -/

/-- C8 counterexample: a concrete payload that is not valid JSON is dropped
by the current handleDeviceResponse (logged as an error, no wrapping, no
store, no state change), contradicting the claim that every such payload is
wrapped as a raw message object and persisted as general device data. -/
theorem nonjson_dropped_cex :
    handleDeviceResponsePayload [] "ESP32_1" (Payload.nonJson "hello")
      = DeviceResponseStep.droppedInvalidJson := by
  rfl

/-- C8 amended: the current handleDeviceResponse drops every payload that
fails JSON.parse without mutating pending-command state; only the legacy
handler kept in the same source file wraps such payloads as a raw message
object and classifies them as general device data. -/
theorem nonjson_handling :
    ∀ (pending : JsMap PendingCommand) (deviceId raw : String),
      handleDeviceResponsePayload pending deviceId (Payload.nonJson raw)
        = DeviceResponseStep.droppedInvalidJson
      ∧ parseOrWrap (Payload.nonJson raw)
          = { raw_message := some raw, type := none, action := none }
      ∧ legacyClassify (parseOrWrap (Payload.nonJson raw))
          = LegacyClass.general := by
  intro pending deviceId raw
  refine ⟨rfl, rfl, ?_⟩
  simp [parseOrWrap, legacyClassify]

/-! Theorems for the acknowledgment correlator. -/

/-- C10: the heuristic matcher guards are truthiness checks: a pending
command whose expectedAction is undefined and whose expectedPin is falsy
(undefined or zero) is resolved by any inbound message on the response
topic of its board that carries truthy status and action fields, whatever
the action or pin of that message, provided it was not consumed by the
explicit acknowledgment path first. -/
theorem heuristic_truthiness :
    ∀ (pre post : JsMap PendingCommand) (id : String) (p : PendingCommand)
      (deviceId : String) (msg : RespMsg),
      p.boardId = deviceId → p.expectedAction = none →
      pinTruthy p.expectedPin = false →
      strTruthy msg.status = true → strTruthy msg.action = true →
      ¬(msg.type = some "ack" ∧ strTruthy msg.commandId) →
      (∀ e ∈ pre, e.2.boardId ≠ deviceId) →
      handleDeviceResponseAcks (pre ++ (id, p) :: post) deviceId msg
        = (mapDelete (pre ++ (id, p) :: post) id,
           some { cmdId := id
                  newStatus :=
                    if msg.status = some "success" then "acknowledged"
                    else "failed"
                  waiter := p.waiter
                  value := decide (msg.status = some "success") }) := by
  intro pre post id p deviceId msg hboard haction hpin hstatus hact hnack hpre
  unfold handleDeviceResponseAcks
  rw [if_neg hnack, if_pos ⟨hstatus, hact⟩]
  have hfpre : pre.find? (heuristicGuard deviceId msg) = none := by
    refine List.find?_eq_none.mpr (fun e he => ?_)
    simp [heuristicGuard, hpre e he]
  have hguard : heuristicGuard deviceId msg (id, p) = true := by
    simp [heuristicGuard, hboard, actionMatches, haction, strTruthy,
      pinMatches, hpin]
  rw [find?_append_left_none _ _ _ hfpre,
    List.find?_cons_of_pos _ hguard]

/-- Witness for C10: a pending command with undefined expectedAction and
pin zero is resolved by a message whose action does not match anything it
sent. -/
theorem heuristic_truthiness_witness :
    handleDeviceResponseAcks
      [("c9", { boardId := "board1", commandType := "gpio",
                status := "pending", waiter := some 4,
                expectedAction := none, expectedPin := some 0 })]
      "board1"
      { type := none, commandId := none, success := false,
        status := some "success", action := some "unrelated",
        details := none }
      = ([],
         some { cmdId := "c9", newStatus := "acknowledged",
                waiter := some 4, value := true }) := by
  have h := heuristic_truthiness []
    [] "c9"
    { boardId := "board1", commandType := "gpio", status := "pending",
      waiter := some 4, expectedAction := none, expectedPin := some 0 }
    "board1"
    { type := none, commandId := none, success := false,
      status := some "success", action := some "unrelated", details := none }
    (by decide) (by decide) (by decide) (by decide) (by decide)
    (by decide) (by decide)
  simpa using h

/-- Shape of every resolution performed by the acknowledgment correlator:
the resolved entry was in the map, the new map is the old one with that
entry deleted, the resolve callback invoked is the waiter of that entry,
and the boolean handed to it is true exactly when the terminal status
written is acknowledged. -/
theorem acks_resolved (m : JsMap PendingCommand) (d : String) (msg : RespMsg)
    (m2 : JsMap PendingCommand) (res : Resolution)
    (h : handleDeviceResponseAcks m d msg = (m2, some res)) :
    m2 = mapDelete m res.cmdId
    ∧ ∃ c, (res.cmdId, c) ∈ m ∧ res.waiter = c.waiter
        ∧ (res.value = true ↔ res.newStatus = "acknowledged") := by
  unfold handleDeviceResponseAcks at h
  by_cases h1 : msg.type = some "ack" ∧ strTruthy msg.commandId
  · rw [if_pos h1] at h
    cases hg : mapGet m (msg.commandId.getD "") with
    | none =>
      rw [hg] at h
      have hbad := congrArg Prod.snd h
      simp at hbad
    | some c =>
      rw [hg] at h
      have hm := congrArg Prod.fst h
      have hr := congrArg Prod.snd h
      simp only at hm hr
      have hres := Option.some_inj.mp hr
      refine ⟨?_, c, ?_, ?_, ?_⟩
      · rw [← hres, ← hm]
      · rw [← hres]
        exact mem_of_mapGet _ _ _ hg
      · rw [← hres]
      · rw [← hres]
        cases hs : msg.success <;> simp
  · rw [if_neg h1] at h
    by_cases h2 : strTruthy msg.status ∧ strTruthy msg.action
    · rw [if_pos h2] at h
      cases hf : m.find? (heuristicGuard d msg) with
      | none =>
        rw [hf] at h
        have hbad := congrArg Prod.snd h
        simp at hbad
      | some e =>
        rw [hf] at h
        have hm := congrArg Prod.fst h
        have hr := congrArg Prod.snd h
        simp only at hm hr
        have hres := Option.some_inj.mp hr
        refine ⟨?_, e.2, ?_, ?_, ?_⟩
        · rw [← hres, ← hm]
        · rw [← hres]
          exact List.mem_of_find?_eq_some hf
        · rw [← hres]
        · rw [← hres]
          by_cases hs : msg.status = some "success" <;> simp [hs]
    · rw [if_neg h2] at h
      have hbad := congrArg Prod.snd h
      simp at hbad

/-- A message event that resolves nothing leaves the pending map
unchanged. -/
theorem acks_none (m : JsMap PendingCommand) (d : String) (msg : RespMsg)
    (h : (handleDeviceResponseAcks m d msg).2 = none) :
    (handleDeviceResponseAcks m d msg).1 = m := by
  unfold handleDeviceResponseAcks at h ⊢
  by_cases h1 : msg.type = some "ack" ∧ strTruthy msg.commandId
  · rw [if_pos h1] at h ⊢
    cases hg : mapGet m (msg.commandId.getD "") with
    | none => rfl
    | some c => rw [hg] at h; simp at h
  · rw [if_neg h1] at h ⊢
    by_cases h2 : strTruthy msg.status ∧ strTruthy msg.action
    · rw [if_pos h2] at h ⊢
      cases hf : m.find? (heuristicGuard d msg) with
      | none => rfl
      | some e => rw [hf] at h; simp at h
    · rw [if_neg h2]

/-- C2: every pending command resolves at most once.  Whichever path wins
(explicit acknowledgment, heuristic match, or timeout) removes the entry
from the live map; a later explicit acknowledgment or timeout firing for
that id then finds nothing pending and leaves the state untouched, and no
path can resolve an id that is not in the map. -/
theorem resolve_exactly_once :
    (∀ (m : JsMap PendingCommand) (d : String) (msg : RespMsg)
       (m2 : JsMap PendingCommand) (res : Resolution),
      handleDeviceResponseAcks m d msg = (m2, some res) →
      mapGet m2 res.cmdId = none)
    ∧ (∀ (m : JsMap PendingCommand) (d : String) (msg : RespMsg)
         (res : Resolution),
        (handleDeviceResponseAcks m d msg).2 = some res →
        res.cmdId ∈ m.map Prod.fst)
    ∧ (∀ (m : JsMap PendingCommand) (d : String) (msg : RespMsg)
         (cid : String),
        mapGet m cid = none → msg.type = some "ack" →
        msg.commandId = some cid → cid ≠ "" →
        handleDeviceResponseAcks m d msg = (m, none))
    ∧ (∀ (s : RunState) (cid : String) (w : Nat),
        mapGet s.pending cid = none → step s (Event.timeout cid w) = s)
    ∧ (∀ (s : RunState) (cid : String) (w : Nat) (c : PendingCommand),
        mapGet s.pending cid = some c → c.status = "pending" →
        mapGet (step s (Event.timeout cid w)).pending cid = none) := by
  refine ⟨?_, ?_, ?_, ?_, ?_⟩
  · intro m d msg m2 res h
    obtain ⟨hm, _⟩ := acks_resolved m d msg m2 res h
    rw [hm]
    exact mapGet_delete_self _ _
  · intro m d msg res h
    obtain ⟨_, c, hcmem, _⟩ :=
      acks_resolved m d msg (handleDeviceResponseAcks m d msg).1 res
        (by rw [← h])
    exact List.mem_map_of_mem Prod.fst hcmem
  · intro m d msg cid hnone htype hcid hne
    unfold handleDeviceResponseAcks
    rw [if_pos ⟨htype, by simp [strTruthy, hcid, hne]⟩]
    rw [hcid]
    simp only [Option.getD_some]
    rw [hnone]
  · intro s cid w hnone
    simp only [step]
    rw [hnone]
  · intro s cid w c hsome hst
    simp only [step]
    rw [hsome]
    simp [hst, mapGet_delete_self]

/-- Concrete pending command used by witnesses. -/
def pcW : PendingCommand :=
  { boardId := "b1", commandType := "gpio", status := "pending",
    waiter := none, expectedAction := some "gpio", expectedPin := some 2 }

/-- Concrete explicit acknowledgment message used by witnesses. -/
def ackW : RespMsg :=
  { type := some "ack", commandId := some "c1", success := true,
    status := none, action := none, details := none }

/-- Concrete resolution record used by witnesses. -/
def resW : Resolution :=
  { cmdId := "c1", newStatus := "acknowledged", waiter := none, value := true }

/-- Witness for C2: each conjunct applied at a concrete map, message and
state. -/
theorem resolve_exactly_once_witness :
    mapGet (handleDeviceResponseAcks [("c1", pcW)] "b1" ackW).1 "c1" = none
    ∧ "c1" ∈ List.map Prod.fst [("c1", pcW)]
    ∧ handleDeviceResponseAcks [] "b1" ackW = ([], none)
    ∧ step { pending := [], results := [], log := [] } (Event.timeout "c1" 7)
        = { pending := [], results := [], log := [] }
    ∧ mapGet
        (step { pending := [("c1", pcW)], results := [], log := [] }
          (Event.timeout "c1" 7)).pending "c1" = none := by
  refine ⟨?_, ?_, ?_, ?_, ?_⟩
  · exact resolve_exactly_once.1 [("c1", pcW)] "b1" ackW
      (handleDeviceResponseAcks [("c1", pcW)] "b1" ackW).1 resW (by decide)
  · exact resolve_exactly_once.2.1 [("c1", pcW)] "b1" ackW resW (by decide)
  · exact resolve_exactly_once.2.2.1 [] "b1" ackW "c1" (by decide) (by decide)
      (by decide) (by decide)
  · exact resolve_exactly_once.2.2.2.1
      { pending := [], results := [], log := [] } "c1" 7 (by decide)
  · exact resolve_exactly_once.2.2.2.2
      { pending := [("c1", pcW)], results := [], log := [] } "c1" 7 pcW
      (by decide) (by decide)

/-! Theorems for the identity resolver and auto-registrar. -/

/-- Concrete existing board row with non-null values in every column. -/
def boardW : BoardRecord :=
  { user_id := some 7, mac_address := some "AA:BB:CC:DD:EE:01",
    name := some "Living Room", location := some "Home",
    mqtt_topic_cmd := some "cmd/ESP32_1", mqtt_topic_resp := some "resp/ESP32_1" }

/-- Concrete users table resolving one short id. -/
def udbW : UserDb :=
  { byShortId := fun s => if s = "AB12" then [7] else []
    byEmail := fun _ => []
    byId := fun _ => [] }

/-- Concrete announce data carrying a new MAC address and no name or
location. -/
def regDataW : RegData :=
  { deviceId := some "ESP32_1", shortId := some "AB12", userEmail := none,
    userId := none, detailsMac := some "CC:DD:EE:FF:00:02", mac := none,
    deviceName := none, deviceLocation := none, replyTopic := none }

/-- C5 counterexample: auto-registration over an existing board whose MAC
address, name and location are all non-null overwrites all three with the
announce-derived values; only the user id and the two topic columns keep
their existing values.  This refutes the claim that every existing
non-null value among ownership, MAC address, name, location and the topic
assignments is preserved. -/
theorem autoRegister_overwrite_cex :
    autoRegisterDevice udbW (some boardW) "ESP32_1" regDataW
      = (true,
         some (RegEffect.update
           { user_id := some 7
             mac_address := some "CC:DD:EE:FF:00:02"
             name := some "ESP32 ESP32_1"
             location := some ""
             mqtt_topic_cmd := some "cmd/ESP32_1"
             mqtt_topic_resp := some "resp/ESP32_1" }))
    ∧ boardW.mac_address = some "AA:BB:CC:DD:EE:01"
    ∧ boardW.name = some "Living Room"
    ∧ boardW.location = some "Home" := by
  refine ⟨?_, rfl, rfl, rfl⟩
  rfl

/-- C5 amended: the update run for an existing board is conservative only
for the user id (existing truthy value kept) and the two MQTT topic
columns (existing non-null value kept); the MAC address takes the announce
value whenever one is present, falling back to the stored value only when
the announce carries none, and the name and location columns are always
overwritten because their announce-side values are never null. -/
theorem autoRegister_update_semantics :
    (∀ (udb : UserDb) (b : BoardRecord) (deviceId : String) (data : RegData)
       (u : Nat) (rest : List Nat),
      resolveUser udb data.shortId data.userEmail data.userId = u :: rest →
      autoRegisterDevice udb (some b) deviceId data
        = (true,
           some (RegEffect.update
             (updateExistingBoard b u (firstTruthy data.detailsMac data.mac)
               (jsOrStr data.deviceName ("ESP32 " ++ deviceId))
               (jsOrStr data.deviceLocation "")
               ("cmd/" ++ deviceId) ("resp/" ++ deviceId)))))
    ∧ (∀ (b : BoardRecord) (u : Nat) (mac : Option String)
         (name location topicCmd topicResp : String),
        (∀ eu, b.user_id = some eu → eu ≠ 0 →
          (updateExistingBoard b u mac name location topicCmd topicResp).user_id
            = some eu)
        ∧ (b.user_id = none →
            (updateExistingBoard b u mac name location topicCmd topicResp).user_id
              = some u)
        ∧ (∀ ma, mac = some ma →
            (updateExistingBoard b u mac name location topicCmd
              topicResp).mac_address = some ma)
        ∧ (mac = none →
            (updateExistingBoard b u mac name location topicCmd
              topicResp).mac_address = b.mac_address)
        ∧ (updateExistingBoard b u mac name location topicCmd topicResp).name
            = some name
        ∧ (updateExistingBoard b u mac name location topicCmd
            topicResp).location = some location
        ∧ (∀ tc, b.mqtt_topic_cmd = some tc →
            (updateExistingBoard b u mac name location topicCmd
              topicResp).mqtt_topic_cmd = some tc)
        ∧ (b.mqtt_topic_cmd = none →
            (updateExistingBoard b u mac name location topicCmd
              topicResp).mqtt_topic_cmd = some topicCmd)
        ∧ (∀ tr, b.mqtt_topic_resp = some tr →
            (updateExistingBoard b u mac name location topicCmd
              topicResp).mqtt_topic_resp = some tr)
        ∧ (b.mqtt_topic_resp = none →
            (updateExistingBoard b u mac name location topicCmd
              topicResp).mqtt_topic_resp = some topicResp)) := by
  constructor
  · intro udb b deviceId data u rest hres
    unfold autoRegisterDevice
    rw [hres]
  · intro b u mac name location topicCmd topicResp
    refine ⟨?_, ?_, ?_, ?_, rfl, rfl, ?_, ?_, ?_, ?_⟩
    · intro eu heu hne
      simp [updateExistingBoard, jsOrNat, heu, hne]
    · intro heu
      simp [updateExistingBoard, jsOrNat, heu]
    · intro ma hma
      simp [updateExistingBoard, sqlCoalesce, hma]
    · intro hma
      simp [updateExistingBoard, sqlCoalesce, hma]
    · intro tc htc
      simp [updateExistingBoard, sqlCoalesce, htc]
    · intro htc
      simp [updateExistingBoard, sqlCoalesce, htc]
    · intro tr htr
      simp [updateExistingBoard, sqlCoalesce, htr]
    · intro htr
      simp [updateExistingBoard, sqlCoalesce, htr]

/-- Witness for C5 amended, applied at the concrete board and announce
data of the counterexample. -/
theorem autoRegister_update_semantics_witness :
    autoRegisterDevice udbW (some boardW) "ESP32_1" regDataW
      = (true,
         some (RegEffect.update
           (updateExistingBoard boardW 7
             (firstTruthy regDataW.detailsMac regDataW.mac)
             (jsOrStr regDataW.deviceName ("ESP32 " ++ "ESP32_1"))
             (jsOrStr regDataW.deviceLocation "")
             ("cmd/" ++ "ESP32_1") ("resp/" ++ "ESP32_1"))))
    ∧ (updateExistingBoard boardW 7 (some "CC:DD:EE:FF:00:02") "New" "Here"
        "cmd/ESP32_1" "resp/ESP32_1").user_id = some 7 := by
  constructor
  · exact autoRegister_update_semantics.1 udbW boardW "ESP32_1" regDataW 7 []
      (by decide)
  · exact (autoRegister_update_semantics.2 boardW 7 (some "CC:DD:EE:FF:00:02")
      "New" "Here" "cmd/ESP32_1" "resp/ESP32_1").1 7 (by decide) (by decide)

/-- C6: the owning account resolves in priority order, short id first,
then email, then numeric id, the first non-empty lookup winning; when no
account resolves, autoRegisterDevice writes nothing and reports failure,
and the registration acknowledgment published back carries status failed
with a link_failed error. -/
theorem resolveUser_priority_and_failure :
    (∀ (udb : UserDb) (sid email : Option String) (uid : Option Nat),
      strTruthy sid = true → udb.byShortId (sid.getD "") ≠ [] →
      resolveUser udb sid email uid = udb.byShortId (sid.getD ""))
    ∧ (∀ (udb : UserDb) (sid email : Option String) (uid : Option Nat),
        (strTruthy sid = true → udb.byShortId (sid.getD "") = []) →
        strTruthy email = true → udb.byEmail (email.getD "") ≠ [] →
        resolveUser udb sid email uid = udb.byEmail (email.getD ""))
    ∧ (∀ (udb : UserDb) (sid email : Option String) (uid : Option Nat),
        (strTruthy sid = true → udb.byShortId (sid.getD "") = []) →
        (strTruthy email = true → udb.byEmail (email.getD "") = []) →
        natTruthy uid = true →
        resolveUser udb sid email uid = udb.byId (uid.getD 0))
    ∧ (∀ (udb : UserDb) (existing : Option BoardRecord) (deviceId : String)
         (data : RegData),
        resolveUser udb data.shortId data.userEmail data.userId = [] →
        autoRegisterDevice udb existing deviceId data = (false, none))
    ∧ (∀ (udb : UserDb) (existing : Option BoardRecord) (data : RegData)
         (did : String),
        data.deviceId = some did → did ≠ "" → strTruthy data.shortId = true →
        resolveUser udb data.shortId data.userEmail data.userId = [] →
        ∃ reply, handleRegistration udb existing data
          = some (reply,
              { action := "registered", status := "failed",
                user_short_id := data.shortId.getD "",
                error := some "link_failed" },
              none)) := by
  refine ⟨?_, ?_, ?_, ?_, ?_⟩
  · intro udb sid email uid hsid hne
    simp only [resolveUser]
    rw [if_pos hsid]
    have h2 : ¬(udb.byShortId (sid.getD "") = [] ∧ strTruthy email = true) :=
      fun hc => hne hc.1
    rw [if_neg h2]
    have h3 : ¬(udb.byShortId (sid.getD "") = [] ∧ natTruthy uid = true) :=
      fun hc => hne hc.1
    rw [if_neg h3]
  · intro udb sid email uid hempty hemail hne
    simp only [resolveUser]
    have h3 : ¬(udb.byEmail (email.getD "") = [] ∧ natTruthy uid = true) :=
      fun hc => hne hc.1
    by_cases hsid : strTruthy sid = true
    · rw [if_pos hsid, hempty hsid]
      have h2 : (([] : List Nat) = [] ∧ strTruthy email = true) := ⟨rfl, hemail⟩
      rw [if_pos h2]
      rw [if_neg h3]
    · rw [if_neg hsid]
      have h2 : (([] : List Nat) = [] ∧ strTruthy email = true) := ⟨rfl, hemail⟩
      rw [if_pos h2]
      rw [if_neg h3]
  · intro udb sid email uid hempty1 hempty2 huid
    simp only [resolveUser]
    have h3 : (([] : List Nat) = [] ∧ natTruthy uid = true) := ⟨rfl, huid⟩
    by_cases hsid : strTruthy sid = true
    · rw [if_pos hsid, hempty1 hsid]
      by_cases hemail : strTruthy email = true
      · have h2 : (([] : List Nat) = [] ∧ strTruthy email = true) :=
          ⟨rfl, hemail⟩
        rw [if_pos h2, hempty2 hemail]
        rw [if_pos h3]
      · have h2 : ¬(([] : List Nat) = [] ∧ strTruthy email = true) :=
          fun hc => hemail hc.2
        rw [if_neg h2]
        rw [if_pos h3]
    · rw [if_neg hsid]
      by_cases hemail : strTruthy email = true
      · have h2 : (([] : List Nat) = [] ∧ strTruthy email = true) :=
          ⟨rfl, hemail⟩
        rw [if_pos h2, hempty2 hemail]
        rw [if_pos h3]
      · have h2 : ¬(([] : List Nat) = [] ∧ strTruthy email = true) :=
          fun hc => hemail hc.2
        rw [if_neg h2]
        rw [if_pos h3]
  · intro udb existing deviceId data hres
    unfold autoRegisterDevice
    rw [hres]
  · intro udb existing data did hdid hne hsid hres
    unfold handleRegistration
    rw [hdid]
    have hreg : autoRegisterDevice udb existing did data = (false, none) := by
      unfold autoRegisterDevice
      rw [hres]
    refine ⟨match data.replyTopic with
            | some rt => if rt ≠ "" then rt else "cmd/" ++ did
            | none => "cmd/" ++ did, ?_⟩
    simp [hne, hsid, hreg]

/-- Witness for C6: the conjuncts applied at concrete lookup tables and
registration data. -/
theorem resolveUser_priority_and_failure_witness :
    resolveUser udbW (some "AB12") (some "a@b.c") (some 9) = [7]
    ∧ resolveUser
        { byShortId := fun _ => [], byEmail := fun e => if e = "a@b.c" then [3] else [],
          byId := fun _ => [] } (some "ZZ99") (some "a@b.c") (some 9) = [3]
    ∧ resolveUser
        { byShortId := fun _ => [], byEmail := fun _ => [],
          byId := fun i => if i = 9 then [9] else [] }
        (some "ZZ99") (some "a@b.c") (some 9) = [9]
    ∧ autoRegisterDevice
        { byShortId := fun _ => [], byEmail := fun _ => [], byId := fun _ => [] }
        none "ESP32_9"
        { regDataW with shortId := some "ZZ99" } = (false, none)
    ∧ ∃ reply, handleRegistration
        { byShortId := fun _ => [], byEmail := fun _ => [], byId := fun _ => [] }
        none { regDataW with shortId := some "ZZ99" }
        = some (reply,
            { action := "registered", status := "failed",
              user_short_id := "ZZ99", error := some "link_failed" },
            none) := by
  refine ⟨?_, ?_, ?_, ?_, ?_⟩
  · exact resolveUser_priority_and_failure.1 udbW (some "AB12") (some "a@b.c")
      (some 9) (by decide) (by decide)
  · exact resolveUser_priority_and_failure.2.1
      { byShortId := fun _ => [], byEmail := fun e => if e = "a@b.c" then [3] else [],
        byId := fun _ => [] } (some "ZZ99") (some "a@b.c") (some 9)
      (fun _ => rfl) (by decide) (by decide)
  · exact resolveUser_priority_and_failure.2.2.1
      { byShortId := fun _ => [], byEmail := fun _ => [],
        byId := fun i => if i = 9 then [9] else [] }
      (some "ZZ99") (some "a@b.c") (some 9) (fun _ => rfl) (fun _ => rfl)
      (by decide)
  · exact resolveUser_priority_and_failure.2.2.2.1
      { byShortId := fun _ => [], byEmail := fun _ => [], byId := fun _ => [] }
      none "ESP32_9" { regDataW with shortId := some "ZZ99" } (by decide)
  · have h := resolveUser_priority_and_failure.2.2.2.2
      { byShortId := fun _ => [], byEmail := fun _ => [], byId := fun _ => [] }
      none { regDataW with shortId := some "ZZ99" } "ESP32_1"
      (by decide) (by decide) (by decide) (by decide)
    simpa using h

/-! Lemmas on promise resolution. -/

theorem getResult_resolve_self (rs : List (Nat × Bool)) (w : Nat) (v : Bool)
    (h : getResult rs w = none) :
    getResult (resolveWaiter rs w v) w = some v := by
  have hf : rs.find? (fun r => decide (r.1 = w)) = none := by
    unfold getResult at h
    exact Option.map_eq_none.mp h
  unfold resolveWaiter
  rw [hf]
  unfold getResult
  rw [find?_append_left_none _ _ _ hf]
  rw [List.find?_cons_of_pos _ (by simp)]
  rfl

theorem getResult_resolve_ne (rs : List (Nat × Bool)) (w w2 : Nat) (v : Bool)
    (h : w ≠ w2) :
    getResult (resolveWaiter rs w2 v) w = getResult rs w := by
  unfold resolveWaiter
  cases hf2 : rs.find? (fun r => decide (r.1 = w2)) with
  | some a => rfl
  | none =>
    unfold getResult
    cases hf : rs.find? (fun r => decide (r.1 = w)) with
    | some a => rw [find?_append_left_some _ _ _ _ hf]
    | none =>
      rw [find?_append_left_none _ _ _ hf]
      rw [List.find?_cons_of_neg _ (by simp [Ne.symm h])]
      rfl

/-! Theorems for the waitForAck waiter slot. -/

/-- Concrete pending command for the second-waiter counterexample. -/
def pcC7 : PendingCommand :=
  { boardId := "board1", commandType := "gpio", status := "pending",
    waiter := none, expectedAction := some "gpio", expectedPin := some 2 }

/-- Concrete explicit acknowledgment for the second-waiter
counterexample. -/
def ackC7 : RespMsg :=
  { type := some "ack", commandId := some "cmd_1_1700", success := true,
    status := none, action := none, details := none }

/-- The run of the second-waiter counterexample: waiter 1 blocks on the
command, waiter 2 blocks on the same id, then the acknowledgment
arrives. -/
def runC7 : RunState :=
  run (initState [("cmd_1_1700", pcC7)])
    [Event.wait "cmd_1_1700" 1, Event.wait "cmd_1_1700" 2,
     Event.msg "board1" ackC7]

/-- C7 counterexample: with a waiter already blocked on the id, a second
waitForAck on the same id does not return false without observing the
outcome; its resolve callback replaces the first one, so the second caller
receives the acknowledgment value true while the first caller is never
resolved. -/
theorem second_waiter_cex :
    getResult runC7.results 2 = some true
    ∧ getResult runC7.results 1 = none := by
  constructor
  · decide
  · decide

/-- C7 amended: a second waitForAck on an id that already has a blocked
waiter overwrites the stored resolve callback; a subsequent explicit
acknowledgment resolves the second waiter with the acknowledgment result,
and the first waiter observes nothing. -/
theorem second_waiter_overwrites :
    ∀ (st : JsMap PendingCommand) (cid : String) (w1 w2 : Nat)
      (c : PendingCommand) (d : String) (msg : RespMsg),
      mapGet st cid = some c → w1 ≠ w2 →
      msg.type = some "ack" → msg.commandId = some cid → cid ≠ "" →
      getResult (run (initState st)
          [Event.wait cid w1, Event.wait cid w2, Event.msg d msg]).results w2
        = some msg.success
      ∧ getResult (run (initState st)
          [Event.wait cid w1, Event.wait cid w2, Event.msg d msg]).results w1
        = none := by
  intro st cid w1 w2 c d msg hc hne htype hcid hcne
  have hrun : run (initState st)
      [Event.wait cid w1, Event.wait cid w2, Event.msg d msg]
      = step (step (step (initState st) (Event.wait cid w1))
          (Event.wait cid w2)) (Event.msg d msg) := by
    simp [run]
  have hs1 : step (initState st) (Event.wait cid w1)
      = { pending := mapSet st cid { c with waiter := some w1 },
          results := [], log := [] } := by
    simp only [step, initState]
    rw [hc]
  have hg1 : mapGet (mapSet st cid { c with waiter := some w1 }) cid
      = some { c with waiter := some w1 } := mapGet_set_self _ _ _
  have hs2 : step (step (initState st) (Event.wait cid w1)) (Event.wait cid w2)
      = { pending := mapSet (mapSet st cid { c with waiter := some w1 }) cid
            { c with waiter := some w2 },
          results := [], log := [] } := by
    rw [hs1]
    simp only [step]
    rw [hg1]
  have hg2 : mapGet (mapSet (mapSet st cid { c with waiter := some w1 }) cid
      { c with waiter := some w2 }) cid = some { c with waiter := some w2 } :=
    mapGet_set_self _ _ _
  have hacks : handleDeviceResponseAcks
      (mapSet (mapSet st cid { c with waiter := some w1 }) cid
        { c with waiter := some w2 }) d msg
      = (mapDelete (mapSet (mapSet st cid { c with waiter := some w1 }) cid
          { c with waiter := some w2 }) cid,
         some { cmdId := cid
                newStatus := if msg.success then "acknowledged" else "failed"
                waiter := some w2
                value := msg.success }) := by
    unfold handleDeviceResponseAcks
    rw [if_pos ⟨htype, by simp [strTruthy, hcid, hcne]⟩]
    rw [hcid]
    simp only [Option.getD_some]
    rw [hg2]
  rw [hrun, hs2]
  simp only [step]
  rw [hacks]
  constructor
  · exact getResult_resolve_self [] w2 msg.success rfl
  · rw [getResult_resolve_ne [] w1 w2 msg.success hne]
    rfl

/-- Witness for C7 amended at the concrete run of the counterexample. -/
theorem second_waiter_overwrites_witness :
    getResult (run (initState [("cmd_1_1700", pcC7)])
        [Event.wait "cmd_1_1700" 1, Event.wait "cmd_1_1700" 2,
         Event.msg "board1" ackC7]).results 2 = some ackC7.success
    ∧ getResult (run (initState [("cmd_1_1700", pcC7)])
        [Event.wait "cmd_1_1700" 1, Event.wait "cmd_1_1700" 2,
         Event.msg "board1" ackC7]).results 1 = none :=
  second_waiter_overwrites [("cmd_1_1700", pcC7)] "cmd_1_1700" 1 2 pcC7
    "board1" ackC7 (by decide) (by decide) (by decide) (by decide) (by decide)

/-! The waitForAck correctness development. -/

/-- Invariant tracked while waiter w blocks on correlation id cid: either
the command is still live with our waiter installed, our promise
unresolved, and no resolution of cid logged, or the command has left the
live map and our promise resolved with true exactly when the logged
terminal status is acknowledged. -/
def WaitInv (cid : String) (w : Nat) (s : RunState) : Prop :=
  (s.pending.map Prod.fst).Nodup
  ∧ (∀ e ∈ s.pending, e.1 ≠ cid → e.2.waiter ≠ some w)
  ∧ (((∃ c, mapGet s.pending cid = some c ∧ c.status = "pending"
        ∧ c.waiter = some w)
      ∧ getResult s.results w = none ∧ ∀ r ∈ s.log, r.cmdId ≠ cid)
     ∨ (mapGet s.pending cid = none
        ∧ ∃ v, getResult s.results w = some v
          ∧ (v = true ↔ ∃ r ∈ s.log, r.cmdId = cid
              ∧ r.newStatus = "acknowledged")))

theorem waitInv_msg (cid : String) (w : Nat) (s : RunState) (d : String)
    (msg : RespMsg) (h : WaitInv cid w s) :
    WaitInv cid w (step s (Event.msg d msg)) := by
  obtain ⟨hN, hW, hBr⟩ := h
  simp only [step]
  cases hack : handleDeviceResponseAcks s.pending d msg with
  | mk p2 r =>
    cases r with
    | none =>
      have hp : p2 = s.pending := by
        have h2 := acks_none s.pending d msg (by rw [hack])
        rw [hack] at h2
        exact h2
      rw [hp]
      exact ⟨hN, hW, hBr⟩
    | some res =>
      obtain ⟨hm2, c, hcmem, hwres, hval⟩ :=
        acks_resolved s.pending d msg p2 res hack
      have hget : mapGet s.pending res.cmdId = some c :=
        mapGet_of_mem_nodup _ _ _ hN hcmem
      refine ⟨?_, ?_, ?_⟩
      · show ((p2).map Prod.fst).Nodup
        rw [hm2]
        exact nodup_mapDelete _ _ hN
      · intro e he hene
        have he2 : e ∈ s.pending := by
          rw [hm2] at he
          exact mem_mapDelete _ _ _ he
        exact hW e he2 hene
      · by_cases hcm : res.cmdId = cid
        · rcases hBr with ⟨⟨c1, hc1, hst1, hw1⟩, hr1, hlog1⟩ | ⟨hnone, _⟩
          · have hcc : c = c1 := by
              rw [hcm] at hget
              rw [hget] at hc1
              exact Option.some_inj.mp hc1
            right
            constructor
            · show mapGet p2 cid = none
              rw [hm2, hcm]
              exact mapGet_delete_self _ _
            · refine ⟨res.value, ?_, ?_⟩
              · have hww : res.waiter = some w := by rw [hwres, hcc, hw1]
                show getResult
                    (match res.waiter with
                     | some w2 => resolveWaiter s.results w2 res.value
                     | none => s.results) w = some res.value
                rw [hww]
                exact getResult_resolve_self s.results w res.value hr1
              · constructor
                · intro hv
                  exact ⟨res, by simp, hcm, hval.mp hv⟩
                · rintro ⟨r, hrmem, hrcid, hrstat⟩
                  rcases List.mem_append.mp hrmem with hin | hin
                  · exact absurd hrcid (hlog1 r hin)
                  · have hrr : r = res := by simpa using hin
                    rw [hrr] at hrstat
                    exact hval.mpr hrstat
          · rw [hcm] at hget
            rw [hnone] at hget
            exact Option.noConfusion hget
        · have hwne : res.waiter ≠ some w := by
            rw [hwres]
            exact hW (res.cmdId, c) hcmem hcm
          have hrp : getResult
              (match res.waiter with
               | some w2 => resolveWaiter s.results w2 res.value
               | none => s.results) w = getResult s.results w := by
            cases hwv : res.waiter with
            | none => rfl
            | some w2 =>
              have hww : w ≠ w2 := by
                intro he
                exact hwne (by rw [hwv, he])
              exact getResult_resolve_ne s.results w w2 res.value hww
          have hgp : mapGet p2 cid = mapGet s.pending cid := by
            rw [hm2]
            exact mapGet_delete_ne _ _ _ (fun he => hcm he.symm)
          rcases hBr with ⟨⟨c1, hc1, hst1, hw1⟩, hr1, hlog1⟩ |
            ⟨hnone, v, hv, hiff⟩
          · left
            refine ⟨⟨c1, ?_, hst1, hw1⟩, ?_, ?_⟩
            · show mapGet p2 cid = some c1
              rw [hgp]
              exact hc1
            · show getResult
                  (match res.waiter with
                   | some w2 => resolveWaiter s.results w2 res.value
                   | none => s.results) w = none
              rw [hrp]
              exact hr1
            · intro r hr
              rcases List.mem_append.mp hr with hin | hin
              · exact hlog1 r hin
              · have hrr : r = res := by simpa using hin
                rw [hrr]
                exact hcm
          · right
            refine ⟨?_, v, ?_, ?_⟩
            · show mapGet p2 cid = none
              rw [hgp]
              exact hnone
            · show getResult
                  (match res.waiter with
                   | some w2 => resolveWaiter s.results w2 res.value
                   | none => s.results) w = some v
              rw [hrp]
              exact hv
            · constructor
              · intro hvt
                obtain ⟨r, hrmem, hrcid, hrstat⟩ := hiff.mp hvt
                exact ⟨r, List.mem_append.mpr (Or.inl hrmem), hrcid, hrstat⟩
              · rintro ⟨r, hrmem, hrcid, hrstat⟩
                rcases List.mem_append.mp hrmem with hin | hin
                · exact hiff.mpr ⟨r, hin, hrcid, hrstat⟩
                · have hrr : r = res := by simpa using hin
                  rw [hrr] at hrcid
                  exact absurd hrcid hcm

theorem waitInv_run (cid : String) (w : Nat) (es : List Event) (s : RunState)
    (hall : ∀ e ∈ es, ∃ d m, e = Event.msg d m) (h : WaitInv cid w s) :
    WaitInv cid w (run s es) := by
  induction es generalizing s with
  | nil => exact h
  | cons e rest ih =>
    obtain ⟨d, m, rfl⟩ := hall e (List.mem_cons_self _ _)
    show WaitInv cid w (run (step s (Event.msg d m)) rest)
    exact ih (step s (Event.msg d m))
      (fun x hx => hall x (List.mem_cons_of_mem _ hx))
      (waitInv_msg cid w s d m h)

theorem step_timeout_of_pending (s : RunState) (cid : String) (w : Nat)
    (c : PendingCommand) (hc : mapGet s.pending cid = some c)
    (hst : c.status = "pending") :
    step s (Event.timeout cid w)
      = { pending := mapDelete s.pending cid
          results := resolveWaiter s.results w false
          log := s.log } := by
  simp only [step]
  rw [hc]
  simp [hst]

theorem step_timeout_of_none (s : RunState) (cid : String) (w : Nat)
    (h : mapGet s.pending cid = none) :
    step s (Event.timeout cid w) = s := by
  simp only [step]
  rw [h]

/-- C1: waitForAck returns false immediately when no pending command with
the given correlation id exists; otherwise, with a fresh waiter blocked on
a pending command, over any sequence of inbound messages followed by the
timeout firing, the command always leaves the live pending set, the caller
always receives an answer, and that answer is true exactly when some
acknowledgment (explicit or heuristic) resolved the command to the
acknowledged status before the timeout fired. -/
theorem waitForAck_correct :
    (∀ (st : JsMap PendingCommand) (cid : String) (w : Nat),
      mapGet st cid = none →
      getResult (run (initState st) [Event.wait cid w]).results w
        = some false)
    ∧ (∀ (st : JsMap PendingCommand) (cid : String) (w : Nat)
         (events : List Event) (c : PendingCommand),
        (st.map Prod.fst).Nodup →
        (∀ e ∈ st, e.2.waiter ≠ some w) →
        mapGet st cid = some c → c.status = "pending" →
        (∀ e ∈ events, ∃ d m, e = Event.msg d m) →
        mapGet (run (initState st)
            (Event.wait cid w :: events ++ [Event.timeout cid w])).pending
            cid = none
        ∧ ∃ v, getResult (run (initState st)
              (Event.wait cid w :: events ++ [Event.timeout cid w])).results
              w = some v
          ∧ (v = true ↔ ∃ r ∈ (run (initState st)
                (Event.wait cid w :: events ++ [Event.timeout cid w])).log,
              r.cmdId = cid ∧ r.newStatus = "acknowledged")) := by
  constructor
  · intro st cid w hnone
    show getResult (List.foldl step (initState st) [Event.wait cid w]).results
        w = some false
    simp only [List.foldl_cons, List.foldl_nil]
    simp only [step, initState]
    rw [hnone]
    exact getResult_resolve_self [] w false rfl
  · intro st cid w events c hN hw hc hp hall
    have hsplit : run (initState st)
        (Event.wait cid w :: events ++ [Event.timeout cid w])
        = step (run (step (initState st) (Event.wait cid w)) events)
            (Event.timeout cid w) := by
      simp [run, List.foldl_append]
    have hs1 : step (initState st) (Event.wait cid w)
        = { pending := mapSet st cid { c with waiter := some w },
            results := [], log := [] } := by
      simp only [step, initState]
      rw [hc]
    have hinv1 : WaitInv cid w (step (initState st) (Event.wait cid w)) := by
      rw [hs1]
      refine ⟨?_, ?_, ?_⟩
      · show ((mapSet st cid { c with waiter := some w }).map Prod.fst).Nodup
        rw [mapSet_keys_of_get st cid _ c hc]
        exact hN
      · intro e he hene
        rcases mem_mapSet st cid _ e he with heq | hein
        · exact absurd (congrArg Prod.fst heq) hene
        · exact hw e hein
      · left
        refine ⟨⟨{ c with waiter := some w }, mapGet_set_self _ _ _, ?_, rfl⟩,
          rfl, ?_⟩
        · show c.status = "pending"
          exact hp
        · intro r hr
          cases hr
    have hinv2 : WaitInv cid w
        (run (step (initState st) (Event.wait cid w)) events) :=
      waitInv_run cid w events _ hall hinv1
    obtain ⟨hN2, hW2, hBr2⟩ := hinv2
    rw [hsplit]
    rcases hBr2 with ⟨⟨c2, hc2, hst2, hw2⟩, hr2, hlog2⟩ |
      ⟨hnone2, v, hv2, hiff2⟩
    · rw [step_timeout_of_pending
        (run (step (initState st) (Event.wait cid w)) events) cid w c2 hc2
        hst2]
      refine ⟨mapGet_delete_self _ _, false, ?_, ?_⟩
      · exact getResult_resolve_self _ w false hr2
      · constructor
        · intro hft
          exact absurd hft (by simp)
        · rintro ⟨r, hrmem, hrcid, _⟩
          exact absurd hrcid (hlog2 r hrmem)
    · rw [step_timeout_of_none
        (run (step (initState st) (Event.wait cid w)) events) cid w hnone2]
      exact ⟨hnone2, v, hv2, hiff2⟩

/-- Witness for C1: a concrete pending command, one inbound explicit
acknowledgment before the timeout, and the no-pending-command case. -/
theorem waitForAck_correct_witness :
    getResult (run (initState []) [Event.wait "nope" 3]).results 3
      = some false
    ∧ (mapGet (run (initState [("c1", pcW)])
          (Event.wait "c1" 5 :: [Event.msg "b1" ackW]
            ++ [Event.timeout "c1" 5])).pending "c1" = none
       ∧ ∃ v, getResult (run (initState [("c1", pcW)])
            (Event.wait "c1" 5 :: [Event.msg "b1" ackW]
              ++ [Event.timeout "c1" 5])).results 5 = some v
         ∧ (v = true ↔ ∃ r ∈ (run (initState [("c1", pcW)])
              (Event.wait "c1" 5 :: [Event.msg "b1" ackW]
                ++ [Event.timeout "c1" 5])).log,
             r.cmdId = "c1" ∧ r.newStatus = "acknowledged")) := by
  constructor
  · exact waitForAck_correct.1 [] "nope" 3 (by decide)
  · exact waitForAck_correct.2 [("c1", pcW)] "c1" 5 [Event.msg "b1" ackW] pcW
      (by decide) (by decide) (by decide) (by decide)
      (fun e he => ⟨"b1", ackW, by simpa using he⟩)

end IotPlatform
